import Mathlib

/-
  Verification of the Turbo-Headshots processing core against its
  natural-language specification.

  The development shallowly embeds the queue scheduler (src/processor.js),
  the smart-crop geometry (HeadshotProcessor.applySmartCropAndCorrection),
  the highlight-based white balance (HeadshotProcessor.calculateWhiteBalance,
  revision src/unnamed/part_002) and the remote enhancement client
  (src/replicate.js).  JavaScript numbers are modelled as rationals; the two
  places where IEEE special values matter (division by a zero channel
  average in the white balance) are modelled explicitly with a small
  JavaScript-number type.  Statuses and queue records mirror the persisted
  job schema.
-/

/-- Job status as used by `HeadshotProcessor` (strings in the source). -/
inductive Status where
  | pending
  | processing
  | completed
  | failed
deriving DecidableEq, Repr

/-- One queue record.  Mirrors the persisted job schema: the fields that the
scheduler logic reads or writes (id, sourcePath, status, retries, error).
The id stands for the timestamp-random id of `addToQueue`; the model issues
ids from a counter, which preserves the only property the code relies on,
uniqueness. -/
structure Job where
  id : Nat
  sourcePath : String
  status : Status
  retries : Nat
  error : Option String
deriving DecidableEq, Repr

/-- Replace the first element satisfying `p` by its image under `f`.
Models an in-place mutation of the object returned by `Array.prototype.find`. -/
def updateFirst (p : Job → Bool) (f : Job → Job) : List Job → List Job
  | [] => []
  | x :: t => if p x then f x :: t else x :: updateFirst p f t

/-- Remove the first occurrence of a value from a list of ids. -/
def removeOne (i : Nat) : List Nat → List Nat
  | [] => []
  | x :: t => if x = i then t else x :: removeOne i t

theorem mem_updateFirst (p : Job → Bool) (f : Job → Job) :
    ∀ (l : List Job) (x : Job), x ∈ updateFirst p f l →
      x ∈ l ∨ ∃ y, y ∈ l ∧ p y = true ∧ x = f y := by
  intro l
  induction l with
  | nil => intro x hx; simp [updateFirst] at hx
  | cons a t ih =>
    intro x hx
    by_cases hpa : p a
    · rw [updateFirst, if_pos hpa] at hx
      rcases List.mem_cons.mp hx with h | h
      · exact Or.inr ⟨a, List.mem_cons_self a t, hpa, h⟩
      · exact Or.inl (List.mem_cons_of_mem a h)
    · rw [updateFirst, if_neg hpa] at hx
      rcases List.mem_cons.mp hx with h | h
      · exact Or.inl (List.mem_cons.mpr (Or.inl h))
      · rcases ih x h with h1 | ⟨y, hy, hpy, hxy⟩
        · exact Or.inl (List.mem_cons_of_mem a h1)
        · exact Or.inr ⟨y, List.mem_cons_of_mem a hy, hpy, hxy⟩

theorem mem_updateFirst_of_not (p : Job → Bool) (f : Job → Job) :
    ∀ (l : List Job) (x : Job), x ∈ l → p x = false → x ∈ updateFirst p f l := by
  intro l
  induction l with
  | nil => intro x hx; simp at hx
  | cons a t ih =>
    intro x hx hpx
    by_cases hpa : p a
    · rw [updateFirst, if_pos hpa]
      rcases List.mem_cons.mp hx with h | h
      · exact absurd (h ▸ hpa) (by simp [hpx])
      · exact List.mem_cons_of_mem _ h
    · rw [updateFirst, if_neg hpa]
      rcases List.mem_cons.mp hx with h | h
      · exact List.mem_cons.mpr (Or.inl h)
      · exact List.mem_cons_of_mem _ (ih x h hpx)

theorem updateFirst_mem_cases (p : Job → Bool) (f : Job → Job) :
    ∀ (l : List Job) (j0 x : Job), l.find? p = some j0 →
      x ∈ updateFirst p f l → x ∈ l ∨ x = f j0 := by
  intro l
  induction l with
  | nil => intro j0 x hf; simp at hf
  | cons a t ih =>
    intro j0 x hf hx
    by_cases hpa : p a
    · rw [List.find?_cons_of_pos _ hpa] at hf
      injection hf with hf
      rw [updateFirst, if_pos hpa] at hx
      rcases List.mem_cons.mp hx with h | h
      · exact Or.inr (hf ▸ h)
      · exact Or.inl (List.mem_cons_of_mem a h)
    · rw [List.find?_cons_of_neg _ hpa] at hf
      rw [updateFirst, if_neg hpa] at hx
      rcases List.mem_cons.mp hx with h | h
      · exact Or.inl (List.mem_cons.mpr (Or.inl h))
      · rcases ih j0 x hf h with h1 | h1
        · exact Or.inl (List.mem_cons_of_mem a h1)
        · exact Or.inr h1

theorem find?_updateFirst (p : Job → Bool) (f : Job → Job)
    (hpf : ∀ x, p x = true → p (f x) = true) :
    ∀ (l : List Job) (j : Job), l.find? p = some j →
      (updateFirst p f l).find? p = some (f j) := by
  intro l
  induction l with
  | nil => intro j hf; simp at hf
  | cons a t ih =>
    intro j hf
    by_cases hpa : p a
    · rw [List.find?_cons_of_pos _ hpa] at hf
      injection hf with hf
      rw [updateFirst, if_pos hpa]
      rw [List.find?_cons_of_pos _ (hf ▸ hpf a hpa)]
      rw [hf]
    · rw [List.find?_cons_of_neg _ hpa] at hf
      rw [updateFirst, if_neg hpa]
      rw [List.find?_cons_of_neg _ hpa]
      exact ih j hf

/-- Embedding of `HeadshotProcessor.clearQueue`'s queue filtering
(src/processor.js lines 735-741): with `clearFailed` everything except
completed jobs is dropped, otherwise only pending and processing jobs are
dropped. -/
def clearQueueFilter (clearFailed : Bool) (queue : List Job) : List Job :=
  match clearFailed with
  | true => queue.filter (fun i => decide (i.status = Status.completed))
  | false =>
    queue.filter (fun i =>
      decide (¬ i.status = Status.pending) && decide (¬ i.status = Status.processing))

/-- Embedding of `HeadshotProcessor.loadQueue` (src/processor.js lines
83-104) applied to a successfully parsed persisted list: keep records whose
status is not completed and whose source file exists, then demote each
surviving processing record to pending.  The source statement
`item.retries = (item.retries || 0)` is the identity on the natural-number
retry counter. -/
def loadQueue (fileExists : String → Bool) (data : List Job) : List Job :=
  (data.filter (fun item =>
      decide (¬ item.status = Status.completed) && fileExists item.sourcePath)).map
    (fun item =>
      if item.status = Status.processing then { item with status := Status.pending } else item)

/-- Claim C4: loading the persisted queue drops exactly the records whose
status is completed or whose source file no longer exists, rewrites every
surviving processing record to pending while preserving its id, source
path, retry count and error, and leaves no job in processing or completed
status. -/
theorem c4_loadQueue_spec (fileExists : String → Bool) (data : List Job) :
    (∀ j : Job, j ∈ loadQueue fileExists data ↔
      ∃ j0 : Job, j0 ∈ data ∧ ¬ j0.status = Status.completed ∧
        fileExists j0.sourcePath = true ∧
        j.id = j0.id ∧ j.sourcePath = j0.sourcePath ∧ j.retries = j0.retries ∧
        j.error = j0.error ∧
        j.status = (if j0.status = Status.processing then Status.pending else j0.status)) ∧
    (loadQueue fileExists data).all
      (fun j => decide (¬ j.status = Status.processing) &&
                decide (¬ j.status = Status.completed)) = true := by
  constructor
  · intro j
    constructor
    · intro hj
      rcases List.mem_map.mp hj with ⟨j0, hj0, hdem⟩
      rcases List.mem_filter.mp hj0 with ⟨hmem, hpred⟩
      rw [Bool.and_eq_true, decide_eq_true_eq] at hpred
      refine ⟨j0, hmem, hpred.1, hpred.2, ?_⟩
      by_cases hp : j0.status = Status.processing
      · rw [if_pos hp] at hdem
        subst hdem
        simp [hp]
      · rw [if_neg hp] at hdem
        subst hdem
        simp [hp]
    · rintro ⟨j0, hmem, hnc, hfe, hid, hsp, hr, he, hst⟩
      apply List.mem_map.mpr
      refine ⟨j0, List.mem_filter.mpr ⟨hmem, ?_⟩, ?_⟩
      · rw [Bool.and_eq_true, decide_eq_true_eq]
        exact ⟨hnc, hfe⟩
      · cases j with
        | mk jid jsp jst jr je =>
          cases j0 with
          | mk j0id j0sp j0st j0r j0e =>
            simp only at hid hsp hr he hst
            subst hid; subst hsp; subst hr; subst he
            by_cases hp : j0st = Status.processing
            · simp only [hp, if_pos] at hst ⊢
              simp [hst]
            · rw [if_neg hp] at hst ⊢
              simp [hst]
  · apply List.all_eq_true.mpr
    intro j hj
    rcases List.mem_map.mp hj with ⟨j0, hj0, hdem⟩
    rcases List.mem_filter.mp hj0 with ⟨_, hpred⟩
    rw [Bool.and_eq_true, decide_eq_true_eq] at hpred
    rw [Bool.and_eq_true, decide_eq_true_eq, decide_eq_true_eq]
    by_cases hp : j0.status = Status.processing
    · rw [if_pos hp] at hdem
      subst hdem
      simp
    · rw [if_neg hp] at hdem
      subst hdem
      exact ⟨hp, hpred.1⟩

/-- Three concrete jobs for the clearQueue scenario of the spec. -/
def pendingJob : Job := ⟨1, "p.jpg", Status.pending, 0, none⟩

def failedJob : Job := ⟨2, "f.jpg", Status.failed, 3, some "boom"⟩

def completedJob : Job := ⟨3, "c.jpg", Status.completed, 0, none⟩

/-- Claim C5: clearQueue removes all pending and processing jobs, removes
failed jobs exactly when the flag is set, and never removes completed jobs;
in the one-pending, one-failed, one-completed scenario with the flag off,
only the pending job is removed. -/
theorem c5_clearQueue_spec :
    (∀ (clearFailed : Bool) (queue : List Job) (j : Job),
      j ∈ clearQueueFilter clearFailed queue ↔
        j ∈ queue ∧ ¬ j.status = Status.pending ∧ ¬ j.status = Status.processing ∧
          (j.status = Status.failed → clearFailed = false)) ∧
    clearQueueFilter false [pendingJob, failedJob, completedJob] = [failedJob, completedJob] := by
  constructor
  · intro clearFailed queue j
    cases clearFailed with
    | false =>
      simp only [clearQueueFilter]
      rw [List.mem_filter]
      constructor
      · rintro ⟨hm, hp⟩
        rw [Bool.and_eq_true, decide_eq_true_eq, decide_eq_true_eq] at hp
        exact ⟨hm, hp.1, hp.2, fun _ => by trivial⟩
      · rintro ⟨hm, h1, h2, _⟩
        refine ⟨hm, ?_⟩
        rw [Bool.and_eq_true, decide_eq_true_eq, decide_eq_true_eq]
        exact ⟨h1, h2⟩
    | true =>
      simp only [clearQueueFilter]
      rw [List.mem_filter]
      constructor
      · rintro ⟨hm, hp⟩
        rw [decide_eq_true_eq] at hp
        refine ⟨hm, ?_, ?_, ?_⟩ <;> simp [hp]
      · rintro ⟨hm, h1, h2, h3⟩
        refine ⟨hm, ?_⟩
        rw [decide_eq_true_eq]
        cases hst : j.status with
        | pending => exact absurd hst h1
        | processing => exact absurd hst h2
        | completed => rfl
        | failed => exact absurd (h3 hst) (by simp)
  · decide

/-
  Interleaved scheduler model.

  `HeadshotProcessor.processNext` is an async function: everything up to the
  `await this.processHeadshot(nextItem)` on line 199 runs atomically, then
  control returns to the event loop until the pipeline promise settles, after
  which the try/catch continuation (lines 200-231) runs atomically.  The model
  therefore splits `processNext` into a begin step and a completion event and
  keeps the multiset of ids of in-flight continuations.  The chained
  `setImmediate(() => this.processNext())` is folded into the completion
  event (the schedule in which the deferred call runs with nothing
  interleaved in between), as is the backoff sleep on the recoverable
  failure path; every trace of this model corresponds to a realizable
  schedule of the source.
-/

/-- Mutable state of a `HeadshotProcessor` instance (src/processor.js
constructor, lines 20-43), restricted to the fields the scheduler logic
reads, plus the list of in-flight `processHeadshot` continuations and the
id counter. -/
structure PState where
  queue : List Job
  processing : Bool
  currentItem : Option Nat
  apiKey : Bool
  processingEnabled : Bool
  stopRequested : Bool
  inflight : List Nat
  nextId : Nat
deriving DecidableEq, Repr

/-- Scheduler API calls plus the two ways an in-flight pipeline run can
settle (`processHeadshot` resolving, or rejecting with an error message). -/
inductive PEvent where
  | add (path : String)
  | setApiKey (k : Bool)
  | setEnabled (e : Bool)
  | stop
  | clear (clearFailed : Bool)
  | retryOne (id : Nat)
  | retryAll
  | completeOk (id : Nat)
  | completeFail (id : Nat) (msg : String)
deriving DecidableEq, Repr

/-- The synchronous prefix of `processNext` (src/processor.js lines
181-196): bail out if already processing, no api key, or disabled;
otherwise mark the first pending job as processing and remember it. -/
def beginNext (s : PState) : PState :=
  if s.processing || !s.apiKey || !s.processingEnabled then s
  else
    match s.queue.find? (fun j => decide (j.status = Status.pending)) with
    | none => s
    | some j =>
      { s with
        processing := true
        currentItem := some j.id
        queue := updateFirst (fun x => decide (x.status = Status.pending))
          (fun x => { x with status := Status.processing }) s.queue
        inflight := s.inflight ++ [j.id] }

/-- The continuation of `processNext` after the pipeline settles
(src/processor.js lines 200-231), applied to the continuation's captured
item: record the outcome on the job, clear the processing flag, consume a
pending stop request or chain into the next `processNext`. -/
def completeTail (s : PState) : PState :=
  let s1 := { s with processing := false, currentItem := none }
  if s1.stopRequested then { s1 with stopRequested := false } else beginNext s1

/-- One scheduler transition of the interleaved model. -/
def stepP (s : PState) : PEvent → PState
  | .add path =>
    let s1 := { s with
      queue := s.queue ++ [⟨s.nextId, path, Status.pending, 0, none⟩]
      nextId := s.nextId + 1 }
    if s1.apiKey && s1.processingEnabled && !s1.processing then beginNext s1 else s1
  | .setApiKey k =>
    let s1 := { s with apiKey := k }
    if s1.apiKey && !s1.queue.isEmpty && !s1.processing then beginNext s1 else s1
  | .setEnabled e =>
    let s1 := { s with processingEnabled := e }
    if e && s1.apiKey && !s1.queue.isEmpty && !s1.processing then beginNext s1 else s1
  | .stop =>
    let s1 := { s with stopRequested := true, processingEnabled := false }
    let s2 :=
      match s.processing, s.currentItem with
      | true, some i =>
        { s1 with
          queue := updateFirst (fun x => decide (x.id = i))
            (fun x => { x with status := Status.pending, retries := 0 }) s1.queue }
      | _, _ => s1
    { s2 with processing := false, currentItem := none }
  | .clear clearFailed =>
    { s with
      stopRequested := true
      processing := false
      currentItem := none
      queue := clearQueueFilter clearFailed s.queue }
  | .retryOne i =>
    let s1 := { s with
      queue := updateFirst (fun x => decide (x.id = i) && decide (x.status = Status.failed))
        (fun x => { x with status := Status.pending, retries := 0, error := none }) s.queue }
    if s1.apiKey && s1.processingEnabled && !s1.processing then beginNext s1 else s1
  | .retryAll =>
    let s1 := { s with
      queue := s.queue.map (fun x =>
        if x.status = Status.failed then
          { x with status := Status.pending, retries := 0, error := none }
        else x) }
    if s1.apiKey && s1.processingEnabled && !s1.processing then beginNext s1 else s1
  | .completeOk i =>
    if i ∈ s.inflight then
      completeTail { s with
        inflight := removeOne i s.inflight
        queue := updateFirst (fun x => decide (x.id = i))
          (fun x => { x with status := Status.completed }) s.queue }
    else s
  | .completeFail i msg =>
    if i ∈ s.inflight then
      completeTail { s with
        inflight := removeOne i s.inflight
        queue := updateFirst (fun x => decide (x.id = i))
          (fun x =>
            if 3 ≤ x.retries + 1 then
              { x with status := Status.failed, retries := x.retries + 1, error := some msg }
            else
              { x with status := Status.pending, retries := x.retries + 1, error := some msg })
          s.queue }
    else s

/-- Initial state of a freshly constructed processor with an empty persisted
queue: no api key yet, processing enabled, nothing running. -/
def initP : PState :=
  { queue := []
    processing := false
    currentItem := none
    apiKey := false
    processingEnabled := true
    stopRequested := false
    inflight := []
    nextId := 0 }

/-- Run a sequence of events from a state. -/
def runP (s : PState) (evs : List PEvent) : PState := evs.foldl stepP s

/-- The schedule that breaks single-concurrency: enqueue three jobs, start
processing, stop while job 0 is in flight, re-enable (which starts job 0 a
second time), let the first stale run finish, re-enable again (starting job
1), then let the second stale run of job 0 finish: its chained processNext
starts job 2 while job 1 is still in flight. -/
def c1Trace : List PEvent :=
  [.add "a.jpg", .add "b.jpg", .add "c.jpg", .setApiKey true, .stop,
   .setEnabled true, .completeOk 0, .setEnabled true, .completeOk 0]

/-- Claim C1 fails on the code: after the `c1Trace` schedule two distinct
jobs simultaneously have status processing, so the single-concurrency
invariant does not hold for every operation sequence. -/
theorem c1_double_processing :
    ((runP initP c1Trace).queue.filter
      (fun j => decide (j.status = Status.processing))).length = 2 := by decide

/-- The schedule that drives one job's retry counter past maxRetries: the
stop/re-enable race leaves a stale second in-flight continuation for job 0;
after the job has already reached status failed with 3 retries, the stale
continuation fails too and increments the counter to 4. -/
def c2RaceTrace : List PEvent :=
  [.add "a.jpg", .setApiKey true, .stop, .setEnabled true, .completeFail 0 "e",
   .setEnabled true, .completeFail 0 "e", .completeFail 0 "e", .completeFail 0 "e"]

/-- Claim C2 as stated fails on the code: the `c2RaceTrace` schedule ends
with the job at retries = 4 > maxRetries = 3. -/
theorem c2_retry_counterexample :
    (runP initP c2RaceTrace).queue = [⟨0, "a.jpg", Status.failed, 4, some "e"⟩] ∧
    ((runP initP c2RaceTrace).queue.all (fun j => decide (j.retries ≤ 3))) = false := by decide

/-- Claim C10: `stopProcessing` (src/processor.js lines 702-720) called
while a job is in flight reverts the current item to pending, resets its
retry counter to 0 (erasing its failure history), disables processing, and
clears the processing flag and current-item marker. -/
theorem c10_stop_reverts (s : PState) (i : Nat) (j : Job)
    (hproc : s.processing = true) (hcur : s.currentItem = some i)
    (hfind : s.queue.find? (fun x => decide (x.id = i)) = some j) :
    (stepP s .stop).queue.find? (fun x => decide (x.id = i)) =
      some { j with status := Status.pending, retries := 0 } ∧
    (stepP s .stop).processingEnabled = false ∧
    (stepP s .stop).processing = false ∧
    (stepP s .stop).currentItem = none ∧
    (stepP s .stop).stopRequested = true := by
  have hup := find?_updateFirst (fun x => decide (x.id = i))
    (fun x => { x with status := Status.pending, retries := 0 })
    (by intro x hx; exact hx) s.queue j hfind
  rw [stepP, hproc, hcur]
  exact ⟨hup, rfl, rfl, rfl, rfl⟩

/-- A concrete processor state with job 0 in flight after two failed
attempts. -/
def c10State : PState :=
  { queue := [⟨0, "w.jpg", Status.processing, 2, some "err"⟩]
    processing := true
    currentItem := some 0
    apiKey := true
    processingEnabled := true
    stopRequested := false
    inflight := [0]
    nextId := 1 }

/-- Witness for C10 at a concrete in-flight state. -/
theorem c10_stop_witness :
    (stepP c10State .stop).queue.find? (fun x => decide (x.id = 0)) =
      some ⟨0, "w.jpg", Status.pending, 0, some "err"⟩ ∧
    (stepP c10State .stop).processingEnabled = false ∧
    (stepP c10State .stop).processing = false ∧
    (stepP c10State .stop).currentItem = none ∧
    (stepP c10State .stop).stopRequested = true :=
  c10_stop_reverts c10State 0 ⟨0, "w.jpg", Status.processing, 2, some "err"⟩
    rfl rfl (by decide)


/-
  Sequential scheduler model.

  Under sequential execution -- each `processNext` invocation runs from its
  begin to the end of its continuation with no other scheduler operation
  interleaved, which is how the scheduler behaves whenever `stopProcessing`,
  `clearQueue` and re-enabling are not raced against an in-flight pipeline
  run -- the begin step and the completion collapse into one atomic
  transition.  The `processing` flag and `currentItem` marker are false/none
  at every observation point of this model, so they are omitted; the
  trigger sites (`addToQueue`, `setApiKey`, `setProcessingEnabled`,
  `retryFailed`, `retryAllFailed` and the setImmediate chain) appear as
  adversary-scheduled `processOne` events, whose internal guard makes
  spurious occurrences no-ops.  The `delays` field is a ghost trace of the
  exponential-backoff sleeps, in seconds. -/

structure SeqState where
  queue : List Job
  apiKey : Bool
  processingEnabled : Bool
  stopRequested : Bool
  delays : List Nat
  nextId : Nat
deriving DecidableEq, Repr

/-- The configured retry maximum (`this.maxRetries = 3`). -/
def maxRetries : Nat := 3

inductive SeqEvent where
  | add (path : String)
  | setApiKey (k : Bool)
  | setEnabled (e : Bool)
  | stop
  | clear (clearFailed : Bool)
  | retryOne (id : Nat)
  | retryAll
  | processOne (result : Option String)
deriving DecidableEq, Repr

/-- Success path of the `processNext` continuation (src/processor.js lines
200-201, 218-221): the selected job becomes completed, the pending stop
request (if any) is consumed. -/
def finishOk (s : SeqState) : SeqState :=
  { s with
    queue := updateFirst (fun x => decide (x.status = Status.pending))
      (fun x => { x with status := Status.completed }) s.queue
    stopRequested := false }

/-- Failure path of the `processNext` continuation (src/processor.js lines
202-216): record the error, increment retries; at maxRetries the job
becomes failed, otherwise it reverts to pending after a 2 ^ retries second
backoff sleep (recorded in the ghost delay trace). -/
def finishFail (s : SeqState) (j : Job) (msg : String) : SeqState :=
  if maxRetries ≤ j.retries + 1 then
    { s with
      queue := updateFirst (fun x => decide (x.status = Status.pending))
        (fun x => { x with status := Status.failed, retries := x.retries + 1,
                           error := some msg }) s.queue
      stopRequested := false }
  else
    { s with
      queue := updateFirst (fun x => decide (x.status = Status.pending))
        (fun x => { x with status := Status.pending, retries := x.retries + 1,
                           error := some msg }) s.queue
      stopRequested := false
      delays := s.delays ++ [2 ^ (j.retries + 1)] }

def applyOutcome (s : SeqState) (j : Job) : Option String → SeqState
  | none => finishOk s
  | some msg => finishFail s j msg

def processFound (s : SeqState) (result : Option String) : Option Job → SeqState
  | none => s
  | some j => applyOutcome s j result

/-- One atomic transition of the sequential model.  `processOne none` is a
full `processNext` cycle whose pipeline run succeeds; `processOne (some
msg)` is a cycle whose pipeline run throws `msg` (src/processor.js lines
181-232). -/
def stepS (s : SeqState) : SeqEvent → SeqState
  | .add path =>
    { s with
      queue := s.queue ++ [⟨s.nextId, path, Status.pending, 0, none⟩]
      nextId := s.nextId + 1 }
  | .setApiKey k => { s with apiKey := k }
  | .setEnabled e => { s with processingEnabled := e }
  | .stop => { s with stopRequested := true, processingEnabled := false }
  | .clear clearFailed =>
    { s with stopRequested := true, queue := clearQueueFilter clearFailed s.queue }
  | .retryOne i =>
    { s with
      queue := updateFirst (fun x => decide (x.id = i) && decide (x.status = Status.failed))
        (fun x => { x with status := Status.pending, retries := 0, error := none }) s.queue }
  | .retryAll =>
    { s with
      queue := s.queue.map (fun x =>
        if x.status = Status.failed then
          { x with status := Status.pending, retries := 0, error := none }
        else x) }
  | .processOne result =>
    if s.apiKey && s.processingEnabled then
      processFound s result (s.queue.find? (fun j => decide (j.status = Status.pending)))
    else s

/-- Initial sequential-model state. -/
def initS : SeqState :=
  { queue := [], apiKey := false, processingEnabled := true,
    stopRequested := false, delays := [], nextId := 0 }

def runS (s : SeqState) (evs : List SeqEvent) : SeqState := evs.foldl stepS s

/-- The retry invariant of the sequential model: no retry counter exceeds
the maximum, and a pending job still has at least one attempt left. -/
def RetryInv (s : SeqState) : Prop :=
  ∀ j ∈ s.queue, j.retries ≤ maxRetries ∧
    (j.status = Status.pending → j.retries + 1 ≤ maxRetries)

theorem stepS_retryInv (s : SeqState) (e : SeqEvent) (h : RetryInv s) :
    RetryInv (stepS s e) := by
  cases e with
  | add path =>
    intro j hj
    rcases List.mem_append.mp hj with hm | hm
    · exact h j hm
    · rcases List.mem_singleton.mp hm with rfl
      exact ⟨by simp [maxRetries], fun _ => by simp [maxRetries]⟩
  | setApiKey k => exact h
  | setEnabled e => exact h
  | stop => exact h
  | clear b =>
    intro j hj
    cases b with
    | true => exact h j (List.mem_filter.mp hj).1
    | false => exact h j (List.mem_filter.mp hj).1
  | retryOne i =>
    intro j hj
    rcases mem_updateFirst _ _ _ _ hj with hm | ⟨y, hy, _, rfl⟩
    · exact h j hm
    · exact ⟨by simp [maxRetries], fun _ => by simp [maxRetries]⟩
  | retryAll =>
    intro j hj
    rcases List.mem_map.mp hj with ⟨y, hy, rfl⟩
    by_cases hf : y.status = Status.failed
    · rw [if_pos hf]
      exact ⟨by simp [maxRetries], fun _ => by simp [maxRetries]⟩
    · rw [if_neg hf]
      exact h y hy
  | processOne result =>
    rw [stepS]
    by_cases hg : (s.apiKey && s.processingEnabled) = true
    · rw [if_pos hg]
      cases hfind : s.queue.find? (fun j => decide (j.status = Status.pending)) with
      | none => rw [processFound]; exact h
      | some j0 =>
        have hj0mem : j0 ∈ s.queue := List.mem_of_find?_eq_some hfind
        have hj0p : j0.status = Status.pending := by
          have h2 := List.find?_some hfind
          simpa using h2
        have hj0r : j0.retries + 1 ≤ maxRetries := (h j0 hj0mem).2 hj0p
        rw [processFound]
        cases result with
        | none =>
          rw [applyOutcome, finishOk]
          intro j hj
          rcases updateFirst_mem_cases _ _ _ _ _ hfind hj with hm | rfl
          · exact h j hm
          · exact ⟨(h j0 hj0mem).1, by simp⟩
        | some msg =>
          rw [applyOutcome, finishFail]
          by_cases hmax : maxRetries ≤ j0.retries + 1
          · rw [if_pos hmax]
            intro j hj
            rcases updateFirst_mem_cases _ _ _ _ _ hfind hj with hm | rfl
            · exact h j hm
            · exact ⟨hj0r, by simp⟩
          · rw [if_neg hmax]
            intro j hj
            rcases updateFirst_mem_cases _ _ _ _ _ hfind hj with hm | rfl
            · exact h j hm
            · exact ⟨hj0r, fun _ => Nat.lt_of_not_le hmax⟩
    · rw [if_neg hg]
      exact h

theorem runS_retryInv (evs : List SeqEvent) :
    ∀ s : SeqState, RetryInv s → RetryInv (runS s evs) := by
  induction evs with
  | nil => intro s h; exact h
  | cons e t ih =>
    intro s h
    exact ih (stepS s e) (stepS_retryInv s e h)

/-- The always-failing scenario: one job, api key set, three pipeline runs
that all throw. -/
def c2FailTrace : List SeqEvent :=
  [.add "x.jpg", .setApiKey true, .processOne (some "boom"),
   .processOne (some "boom"), .processOne (some "boom")]

/-- Claim C2, amended: under sequential scheduler execution no retry
counter ever exceeds maxRetries = 3; a failed job is never again selected
or altered by the scheduling loop; and a job whose every attempt fails
undergoes exactly three failing attempts, ending failed with retries = 3
and the error recorded, after which a further scheduling pass changes
nothing. -/
theorem c2_retry_cap :
    (∀ (evs : List SeqEvent), ∀ j ∈ (runS initS evs).queue,
      j.retries ≤ maxRetries ∧
      (j.status = Status.failed → ∀ result,
        j ∈ (stepS (runS initS evs) (.processOne result)).queue)) ∧
    (runS initS c2FailTrace).queue = [⟨0, "x.jpg", Status.failed, 3, some "boom"⟩] ∧
    stepS (runS initS c2FailTrace) (.processOne (some "later")) = runS initS c2FailTrace := by
  refine ⟨?_, by decide, by decide⟩
  intro evs j hj
  have hinv := runS_retryInv evs initS (by intro j hj; simp [initS] at hj) j hj
  refine ⟨hinv.1, ?_⟩
  intro hfail result
  rw [stepS]
  by_cases hg : ((runS initS evs).apiKey && (runS initS evs).processingEnabled) = true
  · rw [if_pos hg]
    cases hfind : (runS initS evs).queue.find? (fun x => decide (x.status = Status.pending)) with
    | none => rw [processFound]; exact hj
    | some j0 =>
      have hpj : decide (j.status = Status.pending) = false := by
        simp [hfail]
      rw [processFound]
      cases result with
      | none =>
        rw [applyOutcome, finishOk]
        exact mem_updateFirst_of_not _ _ _ _ hj hpj
      | some msg =>
        rw [applyOutcome, finishFail]
        by_cases hmax : maxRetries ≤ j0.retries + 1
        · rw [if_pos hmax]
          exact mem_updateFirst_of_not _ _ _ _ hj hpj
        · rw [if_neg hmax]
          exact mem_updateFirst_of_not _ _ _ _ hj hpj
  · rw [if_neg hg]
    exact hj

/-- Witness for C2 at the concrete always-failing run: the resulting failed
job has its counter capped and is left untouched by a further scheduling
pass. -/
theorem c2_retry_cap_witness :
    (⟨0, "x.jpg", Status.failed, 3, some "boom"⟩ : Job).retries ≤ maxRetries ∧
    (⟨0, "x.jpg", Status.failed, 3, some "boom"⟩ : Job) ∈
      (stepS (runS initS c2FailTrace) (.processOne (some "later"))).queue := by
  have h := c2_retry_cap.1 c2FailTrace ⟨0, "x.jpg", Status.failed, 3, some "boom"⟩ (by decide)
  exact ⟨h.1, h.2 rfl (some "later")⟩

/-- The always-failing scenario for the backoff claim. -/
def c3FailTrace : List SeqEvent :=
  [.add "y.jpg", .setApiKey true, .processOne (some "boom"),
   .processOne (some "boom"), .processOne (some "boom")]

/-- Claim C3 as stated fails on the code: a job whose every attempt fails
observes backoff delays of 2 and 4 seconds only, not 2, 4 and 8 -- the
third failure moves it directly to failed without a backoff sleep.  The
error message is recorded. -/
theorem c3_backoff_counterexample :
    (runS initS c3FailTrace).delays = [2, 4] ∧
    ¬ (runS initS c3FailTrace).delays = [2, 4, 8] ∧
    (runS initS c3FailTrace).queue = [⟨0, "y.jpg", Status.failed, 3, some "boom"⟩] := by
  decide

/-- Claim C3, amended: a recoverable failure (new retry count below
maxRetries) reverts the job to pending and sleeps 2 ^ retryCount seconds
(the count after increment), so an always-failing job observes delays of 2
then 4 seconds; the third failure transitions the job directly to failed,
with no backoff sleep, and records the error message. -/
theorem c3_backoff_amended :
    (∀ (s : SeqState) (msg : String) (j : Job),
      s.apiKey = true → s.processingEnabled = true →
      s.queue.find? (fun x => decide (x.status = Status.pending)) = some j →
      ((j.retries + 1 < maxRetries →
        (stepS s (.processOne (some msg))).delays = s.delays ++ [2 ^ (j.retries + 1)] ∧
        (stepS s (.processOne (some msg))).queue =
          updateFirst (fun x => decide (x.status = Status.pending))
            (fun x => { x with status := Status.pending, retries := x.retries + 1,
                               error := some msg }) s.queue) ∧
      (maxRetries ≤ j.retries + 1 →
        (stepS s (.processOne (some msg))).delays = s.delays ∧
        (stepS s (.processOne (some msg))).queue =
          updateFirst (fun x => decide (x.status = Status.pending))
            (fun x => { x with status := Status.failed, retries := x.retries + 1,
                               error := some msg }) s.queue))) ∧
    (runS initS c3FailTrace).delays = [2, 4] ∧
    (runS initS c3FailTrace).queue = [⟨0, "y.jpg", Status.failed, 3, some "boom"⟩] := by
  refine ⟨?_, by decide, by decide⟩
  intro s msg j hapi hen hfind
  rw [stepS, if_pos (by rw [hapi, hen]; rfl), hfind, processFound, applyOutcome, finishFail]
  constructor
  · intro hlt
    rw [if_neg (Nat.not_le.mpr hlt)]
    exact ⟨rfl, rfl⟩
  · intro hge
    rw [if_pos hge]
    exact ⟨rfl, rfl⟩

/-- A concrete state with one fresh pending job and the gates open. -/
def c3State : SeqState :=
  { queue := [⟨0, "z.jpg", Status.pending, 0, none⟩], apiKey := true,
    processingEnabled := true, stopRequested := false, delays := [], nextId := 1 }

/-- Witness for C3: the first failing attempt of a fresh job records a
2-second backoff. -/
theorem c3_backoff_witness :
    (stepS c3State (.processOne (some "m"))).delays = [] ++ [2 ^ 1] :=
  ((c3_backoff_amended.1 c3State "m" ⟨0, "z.jpg", Status.pending, 0, none⟩
    rfl rfl (by decide)).1 (by decide)).1

/-
  Crop geometry.

  Embedding of `HeadshotProcessor.applySmartCropAndCorrection`
  (src/processor.js lines 485-545): the arithmetic that produces the crop
  rectangle, statement by statement.  JavaScript numbers are modelled as
  rationals and `Math.round` as `jround` below (for every JavaScript
  number, `Math.round x = Math.floor (x + 0.5)`). -/

/-- JavaScript `Math.round`: round half towards positive infinity. -/
def jround (x : ℚ) : ℤ := ⌊x + 1 / 2⌋

/-- Face geometry handed to the crop routine by `detectFaceAndCrop`. -/
structure FaceData where
  imageWidth : ℤ
  imageHeight : ℤ
  faceCenterX : ℚ
  faceCenterY : ℚ
  estimatedFaceHeight : ℚ
deriving DecidableEq, Repr

structure CropRect where
  cropX : ℤ
  cropY : ℤ
  cropWidth : ℤ
  cropHeight : ℤ
deriving DecidableEq, Repr

/-- Lines 492-500: initial crop height from the estimated face height,
capped at the image height (3.5 multiplier for square targets, 4 for
portrait targets). -/
def cropHeight0 (fd : FaceData) (ar : ℚ) : ℚ :=
  if 1 ≤ ar then min (fd.estimatedFaceHeight * 3.5) (fd.imageHeight : ℚ)
  else min (fd.estimatedFaceHeight * 4) (fd.imageHeight : ℚ)

/-- Lines 495/499: crop width from crop height and the aspect ratio. -/
def cropWidth0 (fd : FaceData) (ar : ℚ) : ℚ := cropHeight0 fd ar * ar

/-- Lines 503-507: scale down if the width exceeds the image width. -/
def cropWidth1 (fd : FaceData) (ar : ℚ) : ℚ :=
  if (fd.imageWidth : ℚ) < cropWidth0 fd ar then (fd.imageWidth : ℚ) else cropWidth0 fd ar

def cropHeight1 (fd : FaceData) (ar : ℚ) : ℚ :=
  if (fd.imageWidth : ℚ) < cropWidth0 fd ar then (fd.imageWidth : ℚ) / ar
  else cropHeight0 fd ar

/-- Lines 508-512: scale down if the height exceeds the image height. -/
def cropWidth2 (fd : FaceData) (ar : ℚ) : ℚ :=
  if (fd.imageHeight : ℚ) < cropHeight1 fd ar then (fd.imageHeight : ℚ) * ar
  else cropWidth1 fd ar

def cropHeight2 (fd : FaceData) (ar : ℚ) : ℚ :=
  if (fd.imageHeight : ℚ) < cropHeight1 fd ar then (fd.imageHeight : ℚ)
  else cropHeight1 fd ar

/-- Lines 515-516: round the dimensions. -/
def cropWidthI (fd : FaceData) (ar : ℚ) : ℤ := jround (cropWidth2 fd ar)

def cropHeightI (fd : FaceData) (ar : ℚ) : ℤ := jround (cropHeight2 fd ar)

/-- Line 519: horizontal position, centering the face. -/
def cropX0 (fd : FaceData) (ar : ℚ) : ℤ :=
  jround (fd.faceCenterX - (cropWidthI fd ar : ℚ) / 2)

/-- Lines 523-525: target vertical face position inside the crop. -/
def targetFacePositionY (fd : FaceData) (ar : ℚ) : ℚ :=
  if ar = 1 then (cropHeightI fd ar : ℚ) * 0.35 else (cropHeightI fd ar : ℚ) * 0.30

/-- Line 527: vertical position. -/
def cropY0 (fd : FaceData) (ar : ℚ) : ℤ :=
  jround (fd.faceCenterY - targetFacePositionY fd ar)

/-- Lines 531-537: clamp the horizontal position into the image. -/
def cropXf (fd : FaceData) (ar : ℚ) : ℤ :=
  if cropX0 fd ar < 0 then 0
  else if fd.imageWidth < cropX0 fd ar + cropWidthI fd ar then fd.imageWidth - cropWidthI fd ar
  else cropX0 fd ar

/-- Lines 539-543: clamp the vertical position into the image. -/
def cropYf (fd : FaceData) (ar : ℚ) : ℤ :=
  if cropY0 fd ar < 0 then 0
  else if fd.imageHeight < cropY0 fd ar + cropHeightI fd ar then fd.imageHeight - cropHeightI fd ar
  else cropY0 fd ar

/-- The crop rectangle handed to `sharp().extract` (lines 548-554). -/
def computeCrop (fd : FaceData) (ar : ℚ) : CropRect :=
  ⟨cropXf fd ar, cropYf fd ar, cropWidthI fd ar, cropHeightI fd ar⟩

theorem jround_nonneg (x : ℚ) (hx : 0 ≤ x) : 0 ≤ jround x := by
  rw [jround]
  exact Int.le_floor.mpr (by push_cast; linarith)

theorem jround_le_int (x : ℚ) (n : ℤ) (h : x ≤ (n : ℚ)) : jround x ≤ n := by
  rw [jround]
  have h2 : (⌊x + 1 / 2⌋ : ℤ) < n + 1 := by
    apply Int.floor_lt.mpr
    push_cast
    linarith
  omega

theorem cropHeight0_bounds (fd : FaceData) (ar : ℚ)
    (hE : 0 ≤ fd.estimatedFaceHeight) (hH : (0 : ℚ) ≤ (fd.imageHeight : ℚ)) :
    0 ≤ cropHeight0 fd ar ∧ cropHeight0 fd ar ≤ (fd.imageHeight : ℚ) := by
  rw [cropHeight0]
  split_ifs <;>
    exact ⟨le_min (by nlinarith) hH, min_le_right _ _⟩

theorem cropDims2_bounds (fd : FaceData) (ar : ℚ) (har : 0 < ar)
    (hE : 0 ≤ fd.estimatedFaceHeight)
    (hW : (1 : ℚ) ≤ (fd.imageWidth : ℚ)) (hH : (1 : ℚ) ≤ (fd.imageHeight : ℚ)) :
    (0 ≤ cropWidth2 fd ar ∧ cropWidth2 fd ar ≤ (fd.imageWidth : ℚ)) ∧
    (0 ≤ cropHeight2 fd ar ∧ cropHeight2 fd ar ≤ (fd.imageHeight : ℚ)) := by
  obtain ⟨hA0, hAH⟩ := cropHeight0_bounds fd ar hE (by linarith)
  have hcw0 : 0 ≤ cropWidth0 fd ar := by
    rw [cropWidth0]; exact mul_nonneg hA0 har.le
  rw [cropWidth2, cropHeight2, cropHeight1, cropWidth1]
  by_cases h1 : (fd.imageWidth : ℚ) < cropWidth0 fd ar
  · rw [if_pos h1]
    by_cases h2 : (fd.imageHeight : ℚ) < (fd.imageWidth : ℚ) / ar
    · rw [if_pos h2, if_pos h2]
      have hWa : (fd.imageHeight : ℚ) * ar < (fd.imageWidth : ℚ) :=
        (lt_div_iff₀ har).mp h2
      exact ⟨⟨by nlinarith, hWa.le⟩, ⟨by linarith, le_refl _⟩⟩
    · rw [if_neg h2, if_neg h2, if_pos h1]
      push_neg at h2
      exact ⟨⟨by linarith, le_refl _⟩, ⟨div_nonneg (by linarith) har.le, h2⟩⟩
  · rw [if_neg h1]
    by_cases h2 : (fd.imageHeight : ℚ) < cropHeight0 fd ar
    · exact absurd h2 (not_lt.mpr hAH)
    · rw [if_neg h2, if_neg h2, if_neg h1]
      push_neg at h1 h2
      exact ⟨⟨hcw0, h1⟩, ⟨hA0, h2⟩⟩

theorem cropDimsI_bounds (fd : FaceData) (ar : ℚ) (har : 0 < ar)
    (hE : 0 ≤ fd.estimatedFaceHeight)
    (hW : 1 ≤ fd.imageWidth) (hH : 1 ≤ fd.imageHeight) :
    (0 ≤ cropWidthI fd ar ∧ cropWidthI fd ar ≤ fd.imageWidth) ∧
    (0 ≤ cropHeightI fd ar ∧ cropHeightI fd ar ≤ fd.imageHeight) := by
  have hWq : (1 : ℚ) ≤ (fd.imageWidth : ℚ) := by exact_mod_cast hW
  have hHq : (1 : ℚ) ≤ (fd.imageHeight : ℚ) := by exact_mod_cast hH
  obtain ⟨⟨hw0, hwW⟩, ⟨hh0, hhH⟩⟩ := cropDims2_bounds fd ar har hE hWq hHq
  exact ⟨⟨jround_nonneg _ hw0, jround_le_int _ _ hwW⟩,
    ⟨jround_nonneg _ hh0, jround_le_int _ _ hhH⟩⟩

theorem clamp_bounds (x w n : ℤ) (_h0 : 0 ≤ w) (hw : w ≤ n) :
    0 ≤ (if x < 0 then 0 else if n < x + w then n - w else x) ∧
    (if x < 0 then 0 else if n < x + w then n - w else x) + w ≤ n := by
  split_ifs <;> omega

/-- Claim C6: for every image of positive size, every face center and every
nonnegative estimated face height, and for every positive target aspect
ratio (the call sites use 4/5 and 1), the crop rectangle lies fully within
the image: 0 ≤ cropX, cropX + cropWidth ≤ imageWidth, 0 ≤ cropY and
cropY + cropHeight ≤ imageHeight. -/
theorem c6_crop_in_bounds (fd : FaceData) (ar : ℚ) (har : 0 < ar)
    (hE : 0 ≤ fd.estimatedFaceHeight)
    (hW : 1 ≤ fd.imageWidth) (hH : 1 ≤ fd.imageHeight) :
    0 ≤ (computeCrop fd ar).cropX ∧
    (computeCrop fd ar).cropX + (computeCrop fd ar).cropWidth ≤ fd.imageWidth ∧
    0 ≤ (computeCrop fd ar).cropY ∧
    (computeCrop fd ar).cropY + (computeCrop fd ar).cropHeight ≤ fd.imageHeight := by
  obtain ⟨⟨hw0, hwW⟩, ⟨hh0, hhH⟩⟩ := cropDimsI_bounds fd ar har hE hW hH
  obtain ⟨hx0, hxW⟩ := clamp_bounds (cropX0 fd ar) (cropWidthI fd ar) fd.imageWidth hw0 hwW
  obtain ⟨hy0, hyH⟩ := clamp_bounds (cropY0 fd ar) (cropHeightI fd ar) fd.imageHeight hh0 hhH
  rw [computeCrop]
  exact ⟨hx0, hxW, hy0, hyH⟩

/-- Witness for C6: an image of 1000 x 800 with the face detected near the
right edge; the crop is shifted back inside the image. -/
theorem c6_crop_witness :
    (0 : ℚ) < 4 / 5 ∧
    0 ≤ (⟨1000, 800, 990, 10, 300⟩ : FaceData).estimatedFaceHeight ∧
    (1 : ℤ) ≤ (⟨1000, 800, 990, 10, 300⟩ : FaceData).imageWidth ∧
    (1 : ℤ) ≤ (⟨1000, 800, 990, 10, 300⟩ : FaceData).imageHeight ∧
    (0 ≤ (computeCrop ⟨1000, 800, 990, 10, 300⟩ (4 / 5)).cropX ∧
     (computeCrop ⟨1000, 800, 990, 10, 300⟩ (4 / 5)).cropX +
       (computeCrop ⟨1000, 800, 990, 10, 300⟩ (4 / 5)).cropWidth ≤ 1000 ∧
     0 ≤ (computeCrop ⟨1000, 800, 990, 10, 300⟩ (4 / 5)).cropY ∧
     (computeCrop ⟨1000, 800, 990, 10, 300⟩ (4 / 5)).cropY +
       (computeCrop ⟨1000, 800, 990, 10, 300⟩ (4 / 5)).cropHeight ≤ 800) :=
  ⟨by norm_num, by norm_num, by norm_num, by norm_num,
    c6_crop_in_bounds ⟨1000, 800, 990, 10, 300⟩ (4 / 5) (by norm_num) (by norm_num)
      (by norm_num) (by norm_num)⟩

theorem cropDims2_square (fd : FaceData) : cropWidth2 fd 1 = cropHeight2 fd 1 := by
  rw [cropWidth2, cropHeight2, cropWidth1, cropHeight1, cropWidth0]
  split_ifs <;> simp

theorem cropDims2_ratio (fd : FaceData) :
    cropWidth2 fd (4 / 5) = 4 / 5 * cropHeight2 fd (4 / 5) := by
  rw [cropWidth2, cropHeight2, cropWidth1, cropHeight1, cropWidth0]
  split_ifs <;> ring

theorem jround_ratio_bound (y : ℚ) :
    |((jround (4 / 5 * y) : ℚ)) - 4 / 5 * ((jround y : ℚ))| ≤ 1 := by
  rw [jround, jround]
  have h1 : ((⌊4 / 5 * y + 1 / 2⌋ : ℤ) : ℚ) ≤ 4 / 5 * y + 1 / 2 := Int.floor_le _
  have h2 : 4 / 5 * y + 1 / 2 - 1 < ((⌊4 / 5 * y + 1 / 2⌋ : ℤ) : ℚ) := Int.sub_one_lt_floor _
  have h3 : ((⌊y + 1 / 2⌋ : ℤ) : ℚ) ≤ y + 1 / 2 := Int.floor_le _
  have h4 : y + 1 / 2 - 1 < ((⌊y + 1 / 2⌋ : ℤ) : ℚ) := Int.sub_one_lt_floor _
  rw [abs_le]
  constructor <;> linarith

/-- Claim C7: with the square target ratio the emitted crop width equals
the crop height exactly; with the 4/5 target ratio the emitted width is
within one pixel of 4/5 of the emitted height. -/
theorem c7_crop_aspect (fd : FaceData) :
    (computeCrop fd 1).cropWidth = (computeCrop fd 1).cropHeight ∧
    |(((computeCrop fd (4 / 5)).cropWidth : ℚ)) -
      4 / 5 * (((computeCrop fd (4 / 5)).cropHeight : ℚ))| ≤ 1 := by
  constructor
  · show cropWidthI fd 1 = cropHeightI fd 1
    rw [cropWidthI, cropHeightI, cropDims2_square]
  · show |((cropWidthI fd (4 / 5) : ℚ)) - 4 / 5 * ((cropHeightI fd (4 / 5) : ℚ))| ≤ 1
    rw [cropWidthI, cropHeightI, cropDims2_ratio]
    exact jround_ratio_bound _

/-
  White balance.

  Embedding of `HeadshotProcessor.calculateWhiteBalance` (revision
  src/unnamed/part_002, lines 774-879).  The input is the downsampled raw
  pixel buffer; a failed read (the catch branch) is modelled by `none`.
  All channel sums and averages are exact rationals.  The one place where
  IEEE semantics matter is `maxChannel / hX` when a highlight channel
  average `hX` is zero: JavaScript yields +Infinity when `maxChannel > 0`
  and NaN when `maxChannel = 0`, and `Math.min`/`Math.max` propagate NaN;
  the `JNum` type models exactly these cases (all other values in this code
  path are nonnegative finite numbers). -/

/-- One RGB pixel of the downsampled buffer (raw channel bytes). -/
structure Pixel where
  r : Nat
  g : Nat
  b : Nat
deriving DecidableEq, Repr

/-- Line 792: rec. 601 luma. -/
def luminance (p : Pixel) : ℚ :=
  0.299 * (p.r : ℚ) + 0.587 * (p.g : ℚ) + 0.114 * (p.b : ℚ)

/-- Line 797: sort pixels by luminance, brightest first.  Insertion sort;
the order among equal-luminance pixels is irrelevant to everything proved
here. -/
def insertDesc (p : Pixel) : List Pixel → List Pixel
  | [] => [p]
  | q :: t => if luminance q ≤ luminance p then p :: q :: t else q :: insertDesc p t

def sortByLumDesc : List Pixel → List Pixel
  | [] => []
  | p :: t => insertDesc p (sortByLumDesc t)

/-- Line 798: `Math.max(10, Math.floor(pixelCount * 0.1))`. -/
def highlightCount (n : Nat) : Nat := max 10 (n / 10)

/-- Line 799: the brightest decile (at least 10 pixels). -/
def highlights (px : List Pixel) : List Pixel :=
  (sortByLumDesc px).take (highlightCount px.length)

/-- Lines 802-810: per-channel averages over the highlights.  The source
divides the channel sums by `highlightCount`, which is at least 10, so
these divisions are never by zero. -/
def hR (px : List Pixel) : ℚ :=
  ((highlights px).foldl (fun a p => a + (p.r : ℚ)) 0) / (highlightCount px.length : ℚ)

def hG (px : List Pixel) : ℚ :=
  ((highlights px).foldl (fun a p => a + (p.g : ℚ)) 0) / (highlightCount px.length : ℚ)

def hB (px : List Pixel) : ℚ :=
  ((highlights px).foldl (fun a p => a + (p.b : ℚ)) 0) / (highlightCount px.length : ℚ)

/-- `Math.min` and `Math.max` on finite JavaScript numbers. -/
def jsMinQ (a b : ℚ) : ℚ := if a ≤ b then a else b

def jsMaxQ (a b : ℚ) : ℚ := if a ≤ b then b else a

theorem jsMinQ_eq (a b : ℚ) : jsMinQ a b = min a b := by rw [jsMinQ, min_def]

theorem jsMaxQ_eq (a b : ℚ) : jsMaxQ a b = max a b := by rw [jsMaxQ, max_def]

/-- Line 813. -/
def maxChannel (px : List Pixel) : ℚ := jsMaxQ (hR px) (jsMaxQ (hG px) (hB px))

/-- Line 814. -/
def highlightBrightness (px : List Pixel) : ℚ := (hR px + hG px + hB px) / 3

/-- A JavaScript number as it can occur in the correction-factor
computation: a finite rational, positive infinity, or NaN. -/
inductive JNum where
  | num (q : ℚ)
  | inf
  | nan
deriving DecidableEq, Repr

/-- Division `a / b` of two nonnegative finite JavaScript numbers. -/
def jsDivNN (a b : ℚ) : JNum :=
  if b = 0 then (if a = 0 then JNum.nan else JNum.inf) else JNum.num (a / b)

/-- `Math.min(a, x)` for finite nonnegative `a`; NaN propagates. -/
def jsMin (a : ℚ) : JNum → JNum
  | JNum.num q => JNum.num (jsMinQ a q)
  | JNum.inf => JNum.num a
  | JNum.nan => JNum.nan

/-- `Math.max(a, x)` for finite nonnegative `a`; NaN propagates. -/
def jsMax (a : ℚ) : JNum → JNum
  | JNum.num q => JNum.num (jsMaxQ a q)
  | JNum.inf => JNum.inf
  | JNum.nan => JNum.nan

/-- Lines 820-829 and 845-854: `factor = max(lo, min(hi, maxC / hX))`. -/
def clampFactor (lo hi maxC hX : ℚ) : JNum := jsMax lo (jsMin hi (jsDivNN maxC hX))

/-- The three per-channel correction factors (the diagonal of the returned
3 x 3 matrix). -/
structure WBOut where
  rFactor : JNum
  gFactor : JNum
  bFactor : JNum
deriving DecidableEq, Repr

/-- `calculateWhiteBalance`: identity on a failed read (catch branch, lines
867-878); otherwise highlight-based factors with the tight clamp band for
bright images (highlight brightness above 220) and the wide band
otherwise. -/
def calculateWhiteBalance (input : Option (List Pixel)) : WBOut :=
  match input with
  | none => ⟨JNum.num 1, JNum.num 1, JNum.num 1⟩
  | some px =>
    if 220 < highlightBrightness px then
      ⟨clampFactor 0.95 1.05 (maxChannel px) (hR px),
       clampFactor 0.95 1.05 (maxChannel px) (hG px),
       clampFactor 0.95 1.05 (maxChannel px) (hB px)⟩
    else
      ⟨clampFactor 0.85 1.15 (maxChannel px) (hR px),
       clampFactor 0.85 1.15 (maxChannel px) (hG px),
       clampFactor 0.85 1.15 (maxChannel px) (hB px)⟩

/-- A factor is a finite number inside the band. -/
def inBandB (lo hi : ℚ) : JNum → Bool
  | JNum.num q => decide (lo ≤ q) && decide (q ≤ hi)
  | JNum.inf => false
  | JNum.nan => false

def allInBand (lo hi : ℚ) (o : WBOut) : Bool :=
  inBandB lo hi o.rFactor && inBandB lo hi o.gFactor && inBandB lo hi o.bFactor

theorem clampFactor_band (lo hi maxC hX : ℚ) (hlohi : lo ≤ hi) (hmax : ¬ maxC = 0) :
    inBandB lo hi (clampFactor lo hi maxC hX) = true := by
  rw [clampFactor, jsDivNN]
  by_cases hx : hX = 0
  · rw [if_pos hx, if_neg hmax, jsMin, jsMax, inBandB, jsMaxQ_eq]
    simp [max_eq_right hlohi, hlohi]
  · rw [if_neg hx, jsMin, jsMax, inBandB, jsMinQ_eq, jsMaxQ_eq]
    simp only [Bool.and_eq_true, decide_eq_true_eq]
    exact ⟨le_max_left _ _, max_le hlohi (min_le_left _ _)⟩

/-- An all-black downsampled image (every highlight channel average is
zero). -/
def blackPixels : List Pixel := [⟨0, 0, 0⟩]

/-- Claim C8 as stated fails on the code: for an all-black input the
highlight brightness is 0 (so the wide band applies by the claim), yet
every factor is `0 / 0 = NaN`, which lies in no band, and the result is
not the identity either. -/
theorem c8_wb_counterexample :
    ¬ 220 < highlightBrightness blackPixels ∧
    calculateWhiteBalance (some blackPixels) = ⟨JNum.nan, JNum.nan, JNum.nan⟩ ∧
    allInBand 0.85 1.15 (calculateWhiteBalance (some blackPixels)) = false := by
  have hr : hR blackPixels = 0 := by
    norm_num [hR, highlights, highlightCount, sortByLumDesc, insertDesc, blackPixels]
  have hg : hG blackPixels = 0 := by
    norm_num [hG, highlights, highlightCount, sortByLumDesc, insertDesc, blackPixels]
  have hb : hB blackPixels = 0 := by
    norm_num [hB, highlights, highlightCount, sortByLumDesc, insertDesc, blackPixels]
  have hbr : highlightBrightness blackPixels = 0 := by
    rw [highlightBrightness, hr, hg, hb]
    norm_num
  have hlt : ¬ 220 < highlightBrightness blackPixels := by
    rw [hbr]
    norm_num
  have hmc : maxChannel blackPixels = 0 := by
    rw [maxChannel, hr, hg, hb, jsMaxQ_eq, jsMaxQ_eq]
    norm_num
  have hcwb : calculateWhiteBalance (some blackPixels) = ⟨JNum.nan, JNum.nan, JNum.nan⟩ := by
    rw [calculateWhiteBalance, if_neg hlt, hmc, hr, hg, hb]
    simp [clampFactor, jsDivNN, jsMin, jsMax]
  exact ⟨hlt, hcwb, by rw [hcwb]; rfl⟩

/-- Claim C8, amended: whenever the averaged highlight color is not pure
black (its largest channel average is nonzero), the per-channel factors
are finite and lie in [0.95, 1.05] when the highlight brightness exceeds
220 and in [0.85, 1.15] otherwise; when every highlight channel average is
zero the factors are NaN; and a failed read yields the identity factors. -/
theorem c8_wb_amended (px : List Pixel) :
    (¬ maxChannel px = 0 →
      (220 < highlightBrightness px →
        allInBand 0.95 1.05 (calculateWhiteBalance (some px)) = true) ∧
      (¬ 220 < highlightBrightness px →
        allInBand 0.85 1.15 (calculateWhiteBalance (some px)) = true)) ∧
    (maxChannel px = 0 →
      calculateWhiteBalance (some px) = ⟨JNum.nan, JNum.nan, JNum.nan⟩) ∧
    calculateWhiteBalance none = ⟨JNum.num 1, JNum.num 1, JNum.num 1⟩ := by
  refine ⟨fun hmax => ⟨fun hbr => ?_, fun hbr => ?_⟩, fun hzero => ?_, rfl⟩
  · rw [calculateWhiteBalance, if_pos hbr, allInBand]
    simp only [Bool.and_eq_true]
    exact ⟨⟨clampFactor_band _ _ _ _ (by norm_num) hmax,
            clampFactor_band _ _ _ _ (by norm_num) hmax⟩,
           clampFactor_band _ _ _ _ (by norm_num) hmax⟩
  · rw [calculateWhiteBalance, if_neg hbr, allInBand]
    simp only [Bool.and_eq_true]
    exact ⟨⟨clampFactor_band _ _ _ _ (by norm_num) hmax,
            clampFactor_band _ _ _ _ (by norm_num) hmax⟩,
           clampFactor_band _ _ _ _ (by norm_num) hmax⟩
  · have h0 : 0 ≤ hR px := by
      rw [hR]
      apply div_nonneg _ (by positivity)
      have : ∀ (l : List Pixel) (a : ℚ), 0 ≤ a → 0 ≤ l.foldl (fun a p => a + (p.r : ℚ)) a := by
        intro l
        induction l with
        | nil => intro a ha; exact ha
        | cons p t ih => intro a ha; exact ih _ (by positivity)
      exact this _ 0 le_rfl
    have h1 : 0 ≤ hG px := by
      rw [hG]
      apply div_nonneg _ (by positivity)
      have : ∀ (l : List Pixel) (a : ℚ), 0 ≤ a → 0 ≤ l.foldl (fun a p => a + (p.g : ℚ)) a := by
        intro l
        induction l with
        | nil => intro a ha; exact ha
        | cons p t ih => intro a ha; exact ih _ (by positivity)
      exact this _ 0 le_rfl
    have h2 : 0 ≤ hB px := by
      rw [hB]
      apply div_nonneg _ (by positivity)
      have : ∀ (l : List Pixel) (a : ℚ), 0 ≤ a → 0 ≤ l.foldl (fun a p => a + (p.b : ℚ)) a := by
        intro l
        induction l with
        | nil => intro a ha; exact ha
        | cons p t ih => intro a ha; exact ih _ (by positivity)
      exact this _ 0 le_rfl
    have hmax0 := hzero
    rw [maxChannel, jsMaxQ_eq, jsMaxQ_eq] at hmax0
    have hr0 : hR px = 0 := le_antisymm (hmax0 ▸ le_max_left _ _) h0
    have hg0 : hG px = 0 :=
      le_antisymm (hmax0 ▸ le_trans (le_max_left _ _) (le_max_right _ _)) h1
    have hb0 : hB px = 0 :=
      le_antisymm (hmax0 ▸ le_trans (le_max_right _ _) (le_max_right _ _)) h2
    have hbr : ¬ 220 < highlightBrightness px := by
      rw [highlightBrightness, hr0, hg0, hb0]
      norm_num
    rw [calculateWhiteBalance, if_neg hbr, hzero, hr0, hg0, hb0]
    simp [clampFactor, jsDivNN, jsMin, jsMax]

/-- A concrete well-lit input for the witness: a single white pixel (all
highlight channel averages 25.5, brightness below 220, wide band applies). -/
def grayPixels : List Pixel := [⟨255, 255, 255⟩]

theorem grayPixels_maxChannel : maxChannel grayPixels = 25.5 := by
  have hr : hR grayPixels = 25.5 := by
    norm_num [hR, highlights, highlightCount, sortByLumDesc, insertDesc, grayPixels]
  have hg : hG grayPixels = 25.5 := by
    norm_num [hG, highlights, highlightCount, sortByLumDesc, insertDesc, grayPixels]
  have hb : hB grayPixels = 25.5 := by
    norm_num [hB, highlights, highlightCount, sortByLumDesc, insertDesc, grayPixels]
  rw [maxChannel, hr, hg, hb, jsMaxQ_eq, jsMaxQ_eq]
  norm_num

theorem grayPixels_brightness : highlightBrightness grayPixels = 25.5 := by
  have hr : hR grayPixels = 25.5 := by
    norm_num [hR, highlights, highlightCount, sortByLumDesc, insertDesc, grayPixels]
  have hg : hG grayPixels = 25.5 := by
    norm_num [hG, highlights, highlightCount, sortByLumDesc, insertDesc, grayPixels]
  have hb : hB grayPixels = 25.5 := by
    norm_num [hB, highlights, highlightCount, sortByLumDesc, insertDesc, grayPixels]
  rw [highlightBrightness, hr, hg, hb]
  norm_num

/-- Witness for C8: on the concrete white input the factors are finite and
inside the wide band. -/
theorem c8_wb_witness :
    ¬ maxChannel grayPixels = 0 ∧
    allInBand 0.85 1.15 (calculateWhiteBalance (some grayPixels)) = true :=
  ⟨by rw [grayPixels_maxChannel]; norm_num,
    ((c8_wb_amended grayPixels).1 (by rw [grayPixels_maxChannel]; norm_num)).2
      (by rw [grayPixels_brightness]; norm_num)⟩

/-
  Remote enhancement client.

  Embedding of `ReplicateClient.waitForPrediction` (src/replicate.js lines
  135-162) and `ReplicateClient.removeBackground` (lines 169-203); the
  operations `enhanceFace`, `smoothSkin` and `upscaleImage` share exactly
  the same submit / waitForPrediction / catch structure.  The network is an
  oracle: `poll k` is the outcome of the k-th status request (an HTTP
  exception, or a response carrying a status string, an output and an
  optional error), and the image encoding and the submission are
  `Except`-valued inputs (`Except.error` models a thrown exception, which
  the enclosing try/catch of every operation converts to the uniform
  failure shape). -/

/-- Result of `waitForPrediction` (`{success, output}` or
`{success:false, error}`). -/
structure PredResult where
  success : Bool
  output : Option String
  error : Option String
deriving DecidableEq, Repr

/-- Outcome of one polling request. -/
inductive PollStep where
  | throwErr (e : String)
  | resp (status : String) (output : String) (error : Option String)
deriving DecidableEq, Repr

/-- A poll outcome that ends the polling loop: an exception or a terminal
status. -/
def isTerminal : PollStep → Bool
  | .throwErr _ => true
  | .resp st _ _ =>
    decide (st = "succeeded") || (decide (st = "failed") || decide (st = "canceled"))

def timeoutMsg : String := "Timeout waiting for prediction (150s)"

/-- Lines 141-158: how one loop iteration treats the poll response; `none`
means the loop keeps polling. -/
def classify : PollStep → Option (Except String PredResult)
  | .throwErr e => some (Except.error e)
  | .resp st out err =>
    if st = "succeeded" then some (Except.ok ⟨true, some out, none⟩)
    else if st = "failed" ∨ st = "canceled" then
      some (Except.ok ⟨false, none, some (err.getD "Prediction failed")⟩)
    else none

/-- The polling loop, counting attempts down from `maxAttempts` (line 136);
exhaustion returns the timeout failure (line 161). -/
def waitLoop (poll : Nat → PollStep) : Nat → Nat → Except String PredResult
  | _, 0 => Except.ok ⟨false, none, some timeoutMsg⟩
  | i, fuel + 1 =>
    match classify (poll i) with
    | some r => r
    | none => waitLoop poll (i + 1) fuel

/-- `waitForPrediction` with its default `maxAttempts = 300`. -/
def waitForPrediction (poll : Nat → PollStep) : Except String PredResult :=
  waitLoop poll 0 300

/-- The uniform result shape of every client operation. -/
structure OpResult where
  success : Bool
  url : Option String
  error : Option String
deriving DecidableEq, Repr

/-- Lines 190-196: translate the polling result into the operation result
(`{success:true, url}` on success, the failure record otherwise). -/
def finishPrediction : Except String PredResult → Except String OpResult
  | Except.error e => Except.error e
  | Except.ok r =>
    Except.ok (if r.success then ⟨true, r.output, none⟩ else ⟨false, none, r.error⟩)

/-- The body of `removeBackground`s try block: encode the image, submit,
poll.  A thrown exception anywhere propagates as `Except.error`. -/
def removeBackgroundE :
    Except String String → Except String String → (Nat → PollStep) →
      Except String OpResult
  | Except.error e, _, _ => Except.error e
  | Except.ok _, Except.error e, _ => Except.error e
  | Except.ok _, Except.ok _, poll => finishPrediction (waitForPrediction poll)

/-- Lines 197-202: the catch branch turning any thrown exception into the
uniform failure shape. -/
def catchResult : Except String OpResult → OpResult
  | Except.ok r => r
  | Except.error e => ⟨false, none, some e⟩

/-- `removeBackground`: try body plus catch. -/
def removeBackground (dataUri submitResp : Except String String)
    (poll : Nat → PollStep) : OpResult :=
  catchResult (removeBackgroundE dataUri submitResp poll)

/-- `downloadImage` (src/replicate.js lines 471-483): fetch and write, with
its own try/catch producing the same shape. -/
def downloadImage : Except String Unit → OpResult
  | Except.ok _ => ⟨true, none, none⟩
  | Except.error e => ⟨false, none, some e⟩

theorem classify_succeeded (st out : String) (err : Option String) (h : st = "succeeded") :
    classify (.resp st out err) = some (Except.ok ⟨true, some out, none⟩) := by
  rw [classify, if_pos h]

theorem classify_failure (st out : String) (err : Option String)
    (h : st = "failed" ∨ st = "canceled") :
    classify (.resp st out err) =
      some (Except.ok ⟨false, none, some (err.getD "Prediction failed")⟩) := by
  have hns : ¬ st = "succeeded" := by
    rcases h with rfl | rfl <;> decide
  rw [classify, if_neg hns, if_pos h]

theorem classify_eq_none (ps : PollStep) (h : isTerminal ps = false) : classify ps = none := by
  cases ps with
  | throwErr e => simp [isTerminal] at h
  | resp st out err =>
    rw [isTerminal] at h
    simp only [Bool.or_eq_false_iff, decide_eq_false_iff_not] at h
    rw [classify, if_neg h.1, if_neg (not_or.mpr h.2)]

theorem waitLoop_succ_some (poll : Nat → PollStep) (i fuel : Nat)
    (r : Except String PredResult) (hc : classify (poll i) = some r) :
    waitLoop poll i (fuel + 1) = r := by
  rw [waitLoop, hc]

theorem waitLoop_succ_none (poll : Nat → PollStep) (i fuel : Nat)
    (hc : classify (poll i) = none) :
    waitLoop poll i (fuel + 1) = waitLoop poll (i + 1) fuel := by
  rw [waitLoop, hc]

theorem waitLoop_skip (poll : Nat → PollStep) :
    ∀ (j i fuel : Nat), j ≤ fuel →
      (∀ k, k < j → isTerminal (poll (i + k)) = false) →
      waitLoop poll i fuel = waitLoop poll (i + j) (fuel - j) := by
  intro j
  induction j with
  | zero => intro i fuel _ _; simp
  | succ j ih =>
    intro i fuel hj h
    obtain ⟨f, rfl⟩ : ∃ f, fuel = f + 1 := ⟨fuel - 1, by omega⟩
    have h0 : isTerminal (poll i) = false := by
      have := h 0 (by omega)
      simpa using this
    rw [waitLoop_succ_none poll i f (classify_eq_none (poll i) h0)]
    have hrec := ih (i + 1) f (by omega) ?hk
    case hk =>
      intro k hk
      have := h (k + 1) (by omega)
      rwa [show i + (k + 1) = i + 1 + k by omega] at this
    have e1 : i + 1 + j = i + (j + 1) := by omega
    have e2 : f - j = f + 1 - (j + 1) := by omega
    rw [hrec, e1, e2]

theorem waitLoop_hit (poll : Nat → PollStep) (j fuel : Nat) (hj : j < fuel)
    (hnt : ∀ k, k < j → isTerminal (poll k) = false)
    (r : Except String PredResult) (hc : classify (poll j) = some r) :
    waitLoop poll 0 fuel = r := by
  have hskip := waitLoop_skip poll j 0 fuel (by omega)
    (by intro k hk; simpa using hnt k hk)
  rw [Nat.zero_add] at hskip
  obtain ⟨f, hf⟩ : ∃ f, fuel - j = f + 1 := ⟨fuel - j - 1, by omega⟩
  rw [hskip, hf, waitLoop_succ_some poll j f r hc]

theorem classify_shape (ps : PollStep) (r : PredResult)
    (h : classify ps = some (Except.ok r)) :
    (r.success = true → r.output.isSome = true ∧ r.error = none) ∧
    (r.success = false → r.error.isSome = true) := by
  cases ps with
  | throwErr e => simp [classify] at h
  | resp st out err =>
    rw [classify] at h
    by_cases h1 : st = "succeeded"
    · rw [if_pos h1] at h
      simp only [Option.some.injEq, Except.ok.injEq] at h
      subst h
      constructor <;> simp
    · rw [if_neg h1] at h
      by_cases h2 : st = "failed" ∨ st = "canceled"
      · rw [if_pos h2] at h
        simp only [Option.some.injEq, Except.ok.injEq] at h
        subst h
        constructor <;> simp
      · rw [if_neg h2] at h
        simp at h

theorem waitLoop_shape (poll : Nat → PollStep) :
    ∀ (fuel i : Nat) (r : PredResult), waitLoop poll i fuel = Except.ok r →
      (r.success = true → r.output.isSome = true ∧ r.error = none) ∧
      (r.success = false → r.error.isSome = true) := by
  intro fuel
  induction fuel with
  | zero =>
    intro i r h
    rw [waitLoop] at h
    simp only [Except.ok.injEq] at h
    subst h
    constructor <;> simp [timeoutMsg]
  | succ f ih =>
    intro i r h
    cases hc : classify (poll i) with
    | some r1 =>
      rw [waitLoop_succ_some poll i f r1 hc] at h
      cases r1 with
      | error e => simp at h
      | ok rr =>
        have hrr : rr = r := by
          simpa using h
        subst hrr
        exact classify_shape (poll i) rr hc
    | none =>
      rw [waitLoop_succ_none poll i f hc] at h
      exact ih (i + 1) r h

/-- Claim C9: the remote operation always returns the single
failure/success shape and never throws.  An encoding exception, a
submission exception, a poll exception, an explicit remote failure or
cancellation, and poll exhaustion each produce `{success:false, error}`
with the corresponding message; a succeeded prediction produces
`{success:true, url}`; and every result has the shape success-with-url or
failure-with-error (`downloadImage` normalizes its own exceptions the same
way). -/
theorem c9_remote_shape (dataUri submitResp : Except String String)
    (poll : Nat → PollStep) :
    (∀ e, dataUri = Except.error e →
      removeBackground dataUri submitResp poll = ⟨false, none, some e⟩) ∧
    (∀ u e, dataUri = Except.ok u → submitResp = Except.error e →
      removeBackground dataUri submitResp poll = ⟨false, none, some e⟩) ∧
    (∀ u v j out err, dataUri = Except.ok u → submitResp = Except.ok v →
      j < 300 → (∀ k, k < j → isTerminal (poll k) = false) →
      poll j = .resp "succeeded" out err →
      removeBackground dataUri submitResp poll = ⟨true, some out, none⟩) ∧
    (∀ u v j st out err, dataUri = Except.ok u → submitResp = Except.ok v →
      j < 300 → (∀ k, k < j → isTerminal (poll k) = false) →
      (st = "failed" ∨ st = "canceled") → poll j = .resp st out err →
      removeBackground dataUri submitResp poll =
        ⟨false, none, some (err.getD "Prediction failed")⟩) ∧
    (∀ u v j e, dataUri = Except.ok u → submitResp = Except.ok v →
      j < 300 → (∀ k, k < j → isTerminal (poll k) = false) →
      poll j = .throwErr e →
      removeBackground dataUri submitResp poll = ⟨false, none, some e⟩) ∧
    (∀ u v, dataUri = Except.ok u → submitResp = Except.ok v →
      (∀ k, k < 300 → isTerminal (poll k) = false) →
      removeBackground dataUri submitResp poll = ⟨false, none, some timeoutMsg⟩) ∧
    (((removeBackground dataUri submitResp poll).success = true →
        (removeBackground dataUri submitResp poll).url.isSome = true ∧
        (removeBackground dataUri submitResp poll).error = none) ∧
     ((removeBackground dataUri submitResp poll).success = false →
        (removeBackground dataUri submitResp poll).error.isSome = true)) ∧
    (∀ e, downloadImage (Except.error e) = ⟨false, none, some e⟩) ∧
    (∀ u, downloadImage (Except.ok u) = ⟨true, none, none⟩) := by
  refine ⟨?_, ?_, ?_, ?_, ?_, ?_, ?_, fun e => rfl, fun u => rfl⟩
  · intro e he
    subst he
    rfl
  · intro u e hu he
    subst hu; subst he
    rfl
  · intro u v j out err hu hv hj hnt hpj
    subst hu; subst hv
    have hw : waitForPrediction poll = Except.ok ⟨true, some out, none⟩ := by
      rw [waitForPrediction]
      exact waitLoop_hit poll j 300 hj hnt _
        (hpj ▸ classify_succeeded _ out err rfl)
    rw [removeBackground, removeBackgroundE, hw, finishPrediction]
    rfl
  · intro u v j st out err hu hv hj hnt hst hpj
    subst hu; subst hv
    have hw : waitForPrediction poll =
        Except.ok ⟨false, none, some (err.getD "Prediction failed")⟩ := by
      rw [waitForPrediction]
      refine waitLoop_hit poll j 300 hj hnt _ ?_
      rw [hpj]
      exact classify_failure st out err hst
    rw [removeBackground, removeBackgroundE, hw, finishPrediction]
    rfl
  · intro u v j e hu hv hj hnt hpj
    subst hu; subst hv
    have hw : waitForPrediction poll = Except.error e := by
      rw [waitForPrediction]
      refine waitLoop_hit poll j 300 hj hnt _ ?_
      rw [hpj]
      rfl
    rw [removeBackground, removeBackgroundE, hw]
    rfl
  · intro u v hu hv hnt
    subst hu; subst hv
    have hw : waitForPrediction poll = Except.ok ⟨false, none, some timeoutMsg⟩ := by
      rw [waitForPrediction]
      have hskip := waitLoop_skip poll 300 0 300 (by omega)
        (by intro k hk; simpa using hnt k hk)
      rw [Nat.zero_add] at hskip
      rw [hskip]
      rfl
    rw [removeBackground, removeBackgroundE, hw, finishPrediction]
    rfl
  · cases hd : dataUri with
    | error e =>
      constructor
      · intro hs
        rw [removeBackground, removeBackgroundE] at hs
        simp [catchResult] at hs
      · intro _
        rw [removeBackground, removeBackgroundE]
        rfl
    | ok u =>
      cases hs : submitResp with
      | error e =>
        constructor
        · intro hsucc
          rw [removeBackground, removeBackgroundE] at hsucc
          simp [catchResult] at hsucc
        · intro _
          rw [removeBackground, removeBackgroundE]
          rfl
      | ok v =>
        cases hw : waitForPrediction poll with
        | error e =>
          constructor
          · intro hsucc
            rw [removeBackground, removeBackgroundE, hw] at hsucc
            simp [finishPrediction, catchResult] at hsucc
          · intro _
            rw [removeBackground, removeBackgroundE, hw]
            rfl
        | ok r =>
          have hshape := waitLoop_shape poll 300 0 r hw
          by_cases hrs : r.success = true
          · have hout := (hshape.1 hrs).1
            have herr := (hshape.1 hrs).2
            rw [removeBackground, removeBackgroundE, hw, finishPrediction]
            rw [if_pos hrs, catchResult]
            constructor
            · intro _
              exact ⟨hout, rfl⟩
            · intro hfalse
              simp at hfalse
          · rw [removeBackground, removeBackgroundE, hw, finishPrediction]
            rw [if_neg hrs, catchResult]
            constructor
            · intro htrue
              simp at htrue
            · intro _
              exact hshape.2 (Bool.eq_false_iff.mpr hrs)

/-- A concrete poll oracle: two in-progress responses, then success. -/
def c9Poll : Nat → PollStep :=
  fun k => if k < 2 then .resp "starting" "" none else .resp "succeeded" "https://out.png" none

/-- Witness for C9: with the concrete oracle the operation returns the
success shape carrying the output url. -/
theorem c9_remote_witness :
    removeBackground (Except.ok "data-uri") (Except.ok "poll-url") c9Poll =
      ⟨true, some "https://out.png", none⟩ :=
  (c9_remote_shape (Except.ok "data-uri") (Except.ok "poll-url") c9Poll).2.2.1
    "data-uri" "poll-url" 2 "https://out.png" none rfl rfl (by decide)
    (by decide) (by decide)
